import Mathlib

/-!
Verification of the transient mixing-vessel simulation
(`transientBalanceEquation.py`): the derivative function (vessel model),
the boundary-input schedules, the time-stepping simulation driver, and
the persisted output table.  Real-valued quantities are embedded as
rationals; the external ODE integrator (`odeint`) is an abstract
parameter returning a sub-trajectory; divisions that can fail are
modelled with `Option`.
-/

/-- The state triple (Volume, Concentration, Temperature). -/
abbrev St : Type := ℚ × ℚ × ℚ

/-- The vessel model: `vessel(x, t, q, qf, caf, tf)`.  The time parameter
is shadowed by the temperature component `t = x[2]`, exactly as in the
source.  Computes `dVdt` first and reuses it in the other two balances. -/
def vessel (x : St) ( t : ℚ) (q qf caf tf : ℚ) : St :=
  let v := x.1
  let ca := x.2.1
  let t := x.2.2
  let rA : ℚ := 0
  let dVdt := qf - q
  let dCadt := (qf * caf - q * ca) / v - rA - (ca * dVdt / v)
  let dTdt := (qf * tf - q * t) / v - (t * dVdt / v)
  (dVdt, dCadt, dTdt)

/-- Checked division: `none` models the domain error / non-finite result
of dividing by zero. -/
def qdiv (a b : ℚ) : Option ℚ :=
  if b = 0 then none else some (a / b)

/-- The vessel model with every division by the volume checked: the
fallible embedding of `vessel`, failing exactly where the source's
divisions fail. -/
def vesselChecked (x : St) ( t : ℚ) (q qf caf tf : ℚ) : Option St := do
  let v := x.1
  let ca := x.2.1
  let t := x.2.2
  let rA : ℚ := 0
  let dVdt := qf - q
  let a ← qdiv (qf * caf - q * ca) v
  let b ← qdiv (ca * dVdt) v
  let dCadt := a - rA - b
  let c ← qdiv (qf * tf - q * t) v
  let d ← qdiv (t * dVdt) v
  let dTdt := c - d
  return (dVdt, dCadt, dTdt)

/-- The grid builder `np.linspace a b n`: `n` evenly spaced points from
`a` to `b` inclusive. -/
def linspace (a b : ℚ) (n : ℕ) : List ℚ :=
  (List.range n).map (fun i : ℕ => a + (b - a) * i / (n - 1))

/-- Slice assignment `l[k:] = v`: overwrite the contiguous suffix
starting at index `k` with the constant `v`. -/
def setSuffix (l : List ℚ) (k : ℕ) (v : ℚ) : List ℚ :=
  l.take k ++ List.replicate (l.length - k) v

/-- The time grid: `np.linspace(0, 10, 100)`. -/
def tGrid : List ℚ := linspace 0 10 100

/-- Inlet flowrate schedule: `np.ones(len(t))*5.2` with `qf[50:] = 5.1`. -/
def qfSeq : List ℚ := setSuffix (List.replicate tGrid.length 5.2) 50 5.1

/-- Outlet flowrate schedule: `np.ones(len(t))*5.0`. -/
def qSeq : List ℚ := List.replicate tGrid.length 5.0

/-- Feed concentration schedule: `np.ones(len(t))*1.0` with
`Caf[30:] = 0.5`. -/
def CafSeq : List ℚ := setSuffix (List.replicate tGrid.length 1.0) 30 0.5

/-- Feed temperature schedule: `np.ones(len(t))*300.0` with
`Tf[70:] = 325.0`. -/
def TfSeq : List ℚ := setSuffix (List.replicate tGrid.length 300.0) 70 325.0

/-- Transpose of a rectangular numpy array held as a list of rows
(`data.T` in the source): entry `(i, j)` of the result is entry
`(j, i)` of the input. -/
def npTranspose (rows : List (List ℚ)) : List (List ℚ) :=
  match rows with
  | [] => []
  | r :: _ => (List.range r.length).map (fun j => rows.map (fun row => row.getD j 0))

/-- The persisted table: `np.vstack((t, qf, q, Tf, Caf, V, Ca, T)).T`,
one row per grid index, written by `np.savetxt` comma-delimited with no
header. -/
def dataTable (ts qf q tfs caf V Ca T : List ℚ) : List (List ℚ) :=
  npTranspose [ts, qf, q, tfs, caf, V, Ca, T]

/-- The derivative-function shape the integrator consumes:
`f(x, t, q, qf, caf, tf)`. -/
abbrev DerivFn : Type := St → ℚ → ℚ → ℚ → ℚ → ℚ → St

/-- The abstract stepwise integrator (`odeint` as a black box): given a
derivative function, an initial state, the list of requested time
points, and the four boundary-input scalars, it returns the
sub-trajectory at the requested points. -/
abbrev Integ : Type := DerivFn → St → List ℚ → ℚ → ℚ → ℚ → ℚ → List St

/-- The simulation loop (`for i in range(len(t)-1)`), with the result
arrays modelled as one list of state triples.  Each iteration samples
`q[i], qf[i], caf[i], tf[i]`, builds `ts = [t[i], t[i+1]]`, calls the
integrator on `vessel`, stores the sub-trajectory's last point at index
`i + 1`, and carries it as the next initial condition.  A failed index
lookup (or an empty sub-trajectory) is the run's fatal error, reported
with the failing step index and the arrays as written so far. -/
def driverGo (integ : Integ) (grid q qf caf tf : List ℚ) :
    ℕ → ℕ → St → List St → Except (ℕ × List St) (List St)
  | _, 0, _, traj => Except.ok traj
  | i, steps + 1, cur, traj =>
    match q[i]?, qf[i]?, caf[i]?, tf[i]?, grid[i]?, grid[i + 1]? with
    | some qi, some qfi, some cafi, some tfi, some t0, some t1 =>
      match (integ vessel cur [t0, t1] qi qfi cafi tfi).getLast? with
      | some y =>
          driverGo integ grid q qf caf tf (i + 1) steps y (traj.set (i + 1) y)
      | none => Except.error (i, traj)
    | _, _, _, _, _, _ => Except.error (i, traj)

/-- The simulation driver: result arrays preallocated to the initial
condition at every index (`np.ones(len(t))*V0` and friends), then the
loop over the `len(t) - 1` consecutive grid pairs. -/
def driverRun (integ : Integ) (grid q qf caf tf : List ℚ) (y0 : St) :
    Except (ℕ × List St) (List St) :=
  driverGo integ grid q qf caf tf 0 (grid.length - 1) y0
    (List.replicate grid.length y0)

/-- The state one loop iteration stores at index `i + 1`: the last point
of the integrator's sub-trajectory for `[grid[i], grid[i+1]]`, started
from `cur` with the inputs sampled at index `i`. -/
def stepState (integ : Integ) (grid q qf caf tf : List ℚ) (i : ℕ)
    (cur : St) : St :=
  (integ vessel cur [grid.getD i 0, grid.getD (i + 1) 0] (q.getD i 0)
    (qf.getD i 0) (caf.getD i 0) (tf.getD i 0)).getLastD cur

/-- A concrete integrator for instantiations: echoes the initial state
at both requested time points. -/
def integEcho : Integ := fun _ y _ _ _ _ _ => [y, y]

/-- A concrete integrator for instantiations: returns the one-point
sub-trajectory `[(2, 3, 4)]` regardless of its arguments. -/
def integStub : Integ := fun _ _ _ _ _ _ _ => [((2 : ℚ), (3 : ℚ), (4 : ℚ))]

/-- Claim C1: for every state `(V, Ca, T)` with `V ≠ 0`, every time
argument, and all boundary inputs, the derivative function returns
exactly the triple `(qf − q, (qf·caf − q·Ca)/V − rA − Ca·(dV/dt)/V,
(qf·tf − q·T)/V − T·(dV/dt)/V)` with `rA = 0` and `dV/dt = qf − q`. -/
theorem vessel_eq (V Ca T t q qf caf tf : ℚ) (hV : V ≠ 0) :
    vessel (V, Ca, T) t q qf caf tf =
      (qf - q,
       (qf * caf - q * Ca) / V - 0 - Ca * (qf - q) / V,
       (qf * tf - q * T) / V - T * (qf - q) / V) := by
  simp [vessel]

/-- Witness for C1: the derivative formulas at a concrete state. -/
theorem vessel_eq_witness :
    (1 : ℚ) ≠ 0 ∧
      vessel ((1 : ℚ), (0 : ℚ), (350 : ℚ)) 0 5 (26/5) 1 300 =
        ((26/5 : ℚ) - 5,
         ((26/5 : ℚ) * 1 - 5 * 0) / 1 - 0 - 0 * ((26/5) - 5) / 1,
         ((26/5 : ℚ) * 300 - 5 * 350) / 1 - 350 * ((26/5) - 5) / 1) :=
  ⟨by norm_num, vessel_eq 1 0 350 0 5 (26/5) 1 300 (by norm_num)⟩

/-- Claim C4: if `qf = q` the volume derivative is exactly 0; if
additionally `caf = Ca` and `tf = T`, all three derivative components
are exactly 0. -/
theorem vessel_steady (V Ca T t q qf caf tf : ℚ) (hV : V ≠ 0)
    (hq : qf = q) :
    (vessel (V, Ca, T) t q qf caf tf).1 = 0 ∧
      (caf = Ca → tf = T → vessel (V, Ca, T) t q qf caf tf = (0, 0, 0)) := by
  subst hq
  refine ⟨by simp [vessel], ?_⟩
  intro hcaf htf
  subst hcaf; subst htf
  simp [vessel]

/-- Witness for C4: all three derivatives vanish at a steady state. -/
theorem vessel_steady_witness :
    ((1 : ℚ) ≠ 0 ∧ (5 : ℚ) = 5) ∧
      ((vessel ((1 : ℚ), (2 : ℚ), (300 : ℚ)) 0 5 5 2 300).1 = 0 ∧
        ((2 : ℚ) = 2 → (300 : ℚ) = 300 →
          vessel ((1 : ℚ), (2 : ℚ), (300 : ℚ)) 0 5 5 2 300 = (0, 0, 0))) :=
  ⟨⟨by norm_num, rfl⟩, vessel_steady 1 2 300 0 5 5 2 300 (by norm_num) rfl⟩

/-- Claim C9: the derivative function does not depend on its time
argument — the model is autonomous given the sampled inputs (the source
shadows the time parameter with the temperature component). -/
theorem vessel_time_invariant (x : St) (t1 t2 q qf caf tf : ℚ) :
    vessel x t1 q qf caf tf = vessel x t2 q qf caf tf := rfl

/-- Claim C10: with the reaction rate fixed at 0, the species and energy
balances are the same function of their input pairs: when `Ca = T` and
`caf = tf`, the concentration derivative equals the temperature
derivative. -/
theorem vessel_species_energy_symm (V Ca T t q qf caf tf : ℚ)
    (hV : V ≠ 0) (hca : Ca = T) (hcaf : caf = tf) :
    (vessel (V, Ca, T) t q qf caf tf).2.1 =
      (vessel (V, Ca, T) t q qf caf tf).2.2 := by
  subst hca; subst hcaf
  simp [vessel]

/-- Witness for C10: the two balance components agree at a concrete
state with matching pairs. -/
theorem vessel_species_energy_symm_witness :
    ((1 : ℚ) ≠ 0 ∧ (7 : ℚ) = 7 ∧ (9 : ℚ) = 9) ∧
      (vessel ((1 : ℚ), (7 : ℚ), (7 : ℚ)) 0 5 (26/5) 9 9).2.1 =
        (vessel ((1 : ℚ), (7 : ℚ), (7 : ℚ)) 0 5 (26/5) 9 9).2.2 :=
  ⟨⟨by norm_num, rfl, rfl⟩,
    vessel_species_energy_symm 1 7 7 0 5 (26/5) 9 9 (by norm_num) rfl rfl⟩

/-- Counterexample to claim C5 as stated: at `V = -1 ≤ 0` the derivative
function neither fails nor produces a non-finite result — every checked
division succeeds and a finite triple is returned. -/
theorem vesselChecked_neg_volume_finite :
    ((-1 : ℚ) ≤ 0) ∧
      vesselChecked ((-1 : ℚ), (0 : ℚ), (0 : ℚ)) 0 0 0 0 0 =
        some (0, 0, 0) := by
  constructor
  · norm_num
  · simp [vesselChecked, qdiv]

/-- Claim C5 (amended): the derivative function fails (division by zero,
i.e. a domain error / non-finite result) exactly when `V = 0`; for any
other volume, including negative ones, it returns the finite triple
computed by `vessel` — there is no internal guard, so `V > 0` remains a
precondition on the caller. -/
theorem vesselChecked_characterization (x : St) (t q qf caf tf : ℚ) :
    vesselChecked x t q qf caf tf =
      if x.1 = 0 then none else some (vessel x t q qf caf tf) := by
  by_cases h : x.1 = 0 <;> simp [vesselChecked, vessel, qdiv, h]

set_option maxRecDepth 8000 in
/-- Claim C8: the composed run uses a 100-point grid over [0, 10], and
each boundary-input sequence is a constant baseline with one contiguous
suffix overwrite: `qf` is 5.2 then 5.1 from index 50, `caf` is 1.0 then
0.5 from index 30, `tf` is 300 then 325 from index 70, and `q` is
constant 5.0 at every index. -/
theorem run_configuration :
    tGrid.length = 100 ∧ tGrid.getD 0 0 = 0 ∧ tGrid.getD 99 0 = 10 ∧
    qfSeq = (List.range 100).map (fun i => if i < 50 then (5.2 : ℚ) else 5.1) ∧
    qSeq = (List.range 100).map (fun _ => (5.0 : ℚ)) ∧
    CafSeq = (List.range 100).map (fun i => if i < 30 then (1.0 : ℚ) else 0.5) ∧
    TfSeq = (List.range 100).map (fun i => if i < 70 then (300.0 : ℚ) else 325.0) := by
  have hlen : tGrid.length = 100 := by
    rw [tGrid, linspace, List.length_map, List.length_range]
  refine ⟨hlen, ?_, ?_, rfl, rfl, rfl, rfl⟩
  · rw [tGrid, linspace, List.getD_eq_getElem?_getD, List.getElem?_map]
    rw [show (List.range 100)[0]? = some 0 by
      simp [List.getElem?_range]]
    norm_num
  · rw [tGrid, linspace, List.getD_eq_getElem?_getD, List.getElem?_map]
    rw [show (List.range 100)[99]? = some 99 by
      simp [List.getElem?_range]]
    norm_num

/-- Row count of the transpose of a nonempty rectangular array: the
length of the first row. -/
theorem npTranspose_length (r : List ℚ) (rs : List (List ℚ)) :
    (npTranspose (r :: rs)).length = r.length := by
  simp [npTranspose]

/-- Row `j` of the transpose: entry `j` of every input row, in order. -/
theorem npTranspose_row (r : List ℚ) (rs : List (List ℚ)) (j : ℕ)
    (hj : j < r.length) :
    (npTranspose (r :: rs))[j]? =
      some ((r :: rs).map (fun row => row.getD j 0)) := by
  simp [npTranspose, List.getElem?_map, List.getElem?_range, hj]

/-- Claim C7: for trajectory sequences of grid length, the output table
has one row per grid index (100 rows) and every row has exactly 8
entries in the fixed order time, inlet flow, outlet flow, feed
temperature, feed concentration, volume, concentration, temperature. -/
theorem dataTable_shape (V Ca T : List ℚ)
    (hV : V.length = 100) (hCa : Ca.length = 100) (hT : T.length = 100) :
    (dataTable tGrid qfSeq qSeq TfSeq CafSeq V Ca T).length = 100 ∧
    ∀ i, i < 100 →
      (dataTable tGrid qfSeq qSeq TfSeq CafSeq V Ca T)[i]? =
        some [tGrid.getD i 0, qfSeq.getD i 0, qSeq.getD i 0, TfSeq.getD i 0,
              CafSeq.getD i 0, V.getD i 0, Ca.getD i 0, T.getD i 0] := by
  have hlen : tGrid.length = 100 := by
    rw [tGrid, linspace, List.length_map, List.length_range]
  constructor
  · rw [dataTable, npTranspose_length, hlen]
  · intro i hi
    rw [dataTable, npTranspose_row _ _ i (by rw [hlen]; exact hi)]
    simp

/-- Witness for C7: the table shape at concrete trajectory sequences. -/
theorem dataTable_shape_witness :
    ((List.replicate 100 (1 : ℚ)).length = 100 ∧
     (List.replicate 100 (0 : ℚ)).length = 100 ∧
     (List.replicate 100 (350 : ℚ)).length = 100) ∧
    ((dataTable tGrid qfSeq qSeq TfSeq CafSeq (List.replicate 100 1)
        (List.replicate 100 0) (List.replicate 100 350)).length = 100 ∧
     ∀ i, i < 100 →
       (dataTable tGrid qfSeq qSeq TfSeq CafSeq (List.replicate 100 1)
          (List.replicate 100 0) (List.replicate 100 350))[i]? =
         some [tGrid.getD i 0, qfSeq.getD i 0, qSeq.getD i 0, TfSeq.getD i 0,
               CafSeq.getD i 0, (List.replicate 100 (1 : ℚ)).getD i 0,
               (List.replicate 100 (0 : ℚ)).getD i 0,
               (List.replicate 100 (350 : ℚ)).getD i 0]) :=
  ⟨⟨by simp, by simp, by simp⟩,
    dataTable_shape (List.replicate 100 1) (List.replicate 100 0)
      (List.replicate 100 350) (by simp) (by simp) (by simp)⟩

/-- A successful loop leaves the length of the result arrays unchanged. -/
theorem driverGo_ok_length (integ : Integ) (grid q qf caf tf : List ℚ) :
    ∀ steps i cur traj tr,
      driverGo integ grid q qf caf tf i steps cur traj = Except.ok tr →
      tr.length = traj.length := by
  intro steps
  induction steps with
  | zero =>
    intro i cur traj tr h
    simp only [driverGo] at h
    cases h
    rfl
  | succ steps ih =>
    intro i cur traj tr h
    simp only [driverGo] at h
    split at h
    · split at h
      · exact (ih _ _ _ _ h).trans (List.length_set traj _ _)
      · cases h
    · cases h

/-- A successful loop starting at index `i` never rewrites entries at
indices `≤ i`; in particular the initial condition at index 0 survives. -/
theorem driverGo_ok_low (integ : Integ) (grid q qf caf tf : List ℚ) :
    ∀ steps i cur traj tr,
      driverGo integ grid q qf caf tf i steps cur traj = Except.ok tr →
      ∀ k, k ≤ i → tr[k]? = traj[k]? := by
  intro steps
  induction steps with
  | zero =>
    intro i cur traj tr h k hk
    simp only [driverGo] at h
    cases h
    rfl
  | succ steps ih =>
    intro i cur traj tr h k hk
    simp only [driverGo] at h
    split at h
    · split at h
      · have hkk : i + 1 ≠ k := by omega
        rw [ih _ _ _ _ h k (by omega), List.getElem?_set_ne hkk]
      · cases h
    · cases h

/-- Defaulted lookup agrees with in-range indexing. -/
theorem getD_of_lt (l : List ℚ) (i : ℕ) (d : ℚ) (h : i < l.length) :
    l.getD i d = l[i] := by
  rw [List.getD_eq_getElem?_getD, List.getElem?_eq_getElem h]
  rfl

/-- When every lookup in the remaining steps is in range and the
integrator never returns an empty sub-trajectory, the loop succeeds, and
each entry `i + 1 ≤ j + 1 ≤ i + steps` of the result is the stored last
point of the integrator's sub-trajectory started from entry `j`. -/
theorem driverGo_ok_rel (integ : Integ) (grid q qf caf tf : List ℚ)
    (hne : ∀ f y ts a b c d, integ f y ts a b c d ≠ []) :
    ∀ steps i cur traj,
      i + steps ≤ q.length → i + steps ≤ qf.length → i + steps ≤ caf.length →
      i + steps ≤ tf.length → i + steps < grid.length →
      i + steps < traj.length → traj[i]? = some cur →
      ∃ tr, driverGo integ grid q qf caf tf i steps cur traj = Except.ok tr ∧
        ∀ j, i ≤ j → j < i + steps →
          ∃ sj, tr[j]? = some sj ∧
            tr[j + 1]? = some (stepState integ grid q qf caf tf j sj) := by
  intro steps
  induction steps with
  | zero =>
    intro i cur traj _ _ _ _ _ _ _
    exact ⟨traj, rfl, fun j hj1 hj2 => absurd hj2 (by omega)⟩
  | succ steps ih =>
    intro i cur traj hq hqf hcaf htf hg htl hti
    have hiq : i < q.length := by omega
    have hiqf : i < qf.length := by omega
    have hicaf : i < caf.length := by omega
    have hitf : i < tf.length := by omega
    have hig : i < grid.length := by omega
    have hig1 : i + 1 < grid.length := by omega
    have hitl : i + 1 < traj.length := by omega
    obtain ⟨y, hy⟩ :
        ∃ y, (integ vessel cur [grid[i], grid[i + 1]] q[i] qf[i] caf[i]
          tf[i]).getLast? = some y := by
      cases hL : (integ vessel cur [grid[i], grid[i + 1]] q[i] qf[i] caf[i]
          tf[i]).getLast? with
      | none =>
        exact absurd (List.getLast?_eq_none_iff.mp hL)
          (hne vessel cur [grid[i], grid[i + 1]] q[i] qf[i] caf[i] tf[i])
      | some y => exact ⟨y, rfl⟩
    obtain ⟨tr, htr, hrel⟩ :=
      ih (i + 1) y (traj.set (i + 1) y) (by omega) (by omega) (by omega)
        (by omega) (by omega) (by rw [List.length_set]; omega)
        (List.getElem?_set_eq_of_lt y hitl)
    have hstep : stepState integ grid q qf caf tf i cur = y := by
      rw [stepState, getD_of_lt q i 0 hiq, getD_of_lt qf i 0 hiqf,
        getD_of_lt caf i 0 hicaf, getD_of_lt tf i 0 hitf,
        getD_of_lt grid i 0 hig, getD_of_lt grid (i + 1) 0 hig1,
        List.getLastD_eq_getLast?, hy]
      rfl
    refine ⟨tr, ?_, ?_⟩
    · simp only [driverGo, List.getElem?_eq_getElem hiq,
        List.getElem?_eq_getElem hiqf, List.getElem?_eq_getElem hicaf,
        List.getElem?_eq_getElem hitf, List.getElem?_eq_getElem hig,
        List.getElem?_eq_getElem hig1, hy]
      exact htr
    · intro j hj1 hj2
      rcases Nat.eq_or_lt_of_le hj1 with hji | hji
      · subst hji
        have htri : tr[i]? = some cur := by
          rw [driverGo_ok_low integ grid q qf caf tf steps (i + 1) y
              (traj.set (i + 1) y) tr htr i (by omega),
            List.getElem?_set_ne (by omega), hti]
        have htri1 : tr[i + 1]? = some y := by
          rw [driverGo_ok_low integ grid q qf caf tf steps (i + 1) y
              (traj.set (i + 1) y) tr htr (i + 1) (le_refl _),
            List.getElem?_set_eq_of_lt y hitl]
        exact ⟨cur, htri, by rw [htri1, hstep]⟩
      · exact hrel j hji (by omega)

/-- Claim C3: for every well-formed run (nonempty grid, schedules
covering the `grid.length - 1` steps, integrator returning nonempty
sub-trajectories) the driver succeeds with a trajectory whose length
equals the grid length and whose entry 0 is exactly the supplied
initial condition, never overwritten by the stepping loop. -/
theorem driver_traj_shape (integ : Integ) (grid q qf caf tf : List ℚ)
    (y0 : St) (hne : ∀ f y ts a b c d, integ f y ts a b c d ≠ [])
    (hg : 1 ≤ grid.length)
    (hq : grid.length - 1 ≤ q.length) (hqf : grid.length - 1 ≤ qf.length)
    (hcaf : grid.length - 1 ≤ caf.length) (htf : grid.length - 1 ≤ tf.length) :
    ∃ tr, driverRun integ grid q qf caf tf y0 = Except.ok tr ∧
      tr.length = grid.length ∧ tr[0]? = some y0 := by
  obtain ⟨tr, htr, _⟩ :=
    driverGo_ok_rel integ grid q qf caf tf hne (grid.length - 1) 0 y0
      (List.replicate grid.length y0) (by omega) (by omega) (by omega)
      (by omega) (by omega) (by rw [List.length_replicate]; omega)
      (by rw [List.getElem?_replicate]
          simp [show 0 < grid.length by omega])
  refine ⟨tr, by unfold driverRun; exact htr, ?_, ?_⟩
  · rw [driverGo_ok_length integ grid q qf caf tf _ _ _ _ _ htr,
      List.length_replicate]
  · rw [driverGo_ok_low integ grid q qf caf tf _ _ _ _ _ htr 0 (Nat.zero_le 0),
      List.getElem?_replicate]
    simp [show 0 < grid.length by omega]

/-- Witness for C3: a concrete three-point run. -/
theorem driver_traj_shape_witness :
    ((∀ f y ts a b c d, integEcho f y ts a b c d ≠ []) ∧
      1 ≤ ([0, 1, 2] : List ℚ).length) ∧
    ∃ tr, driverRun integEcho [0, 1, 2] [5, 5] [5, 5] [1, 1] [300, 300]
        ((1 : ℚ), (0 : ℚ), (350 : ℚ)) = Except.ok tr ∧
      tr.length = ([0, 1, 2] : List ℚ).length ∧
      tr[0]? = some ((1 : ℚ), (0 : ℚ), (350 : ℚ)) :=
  ⟨⟨fun _ _ _ _ _ _ _ => List.cons_ne_nil _ _, by decide⟩,
    driver_traj_shape integEcho [0, 1, 2] [5, 5] [5, 5] [1, 1] [300, 300]
      ((1 : ℚ), (0 : ℚ), (350 : ℚ))
      (fun _ _ _ _ _ _ _ => List.cons_ne_nil _ _)
      (by decide) (by decide) (by decide) (by decide) (by decide)⟩

/-- Claim C2: in every well-formed run, for each `i ≤ grid.length - 2`,
the trajectory entry `i + 1` is the last state of the integrator's
sub-trajectory for the two-point interval `[grid[i], grid[i+1]]`,
started from trajectory entry `i` with the four boundary inputs sampled
at index `i` (see `stepState`); only that final point is kept. -/
theorem driver_step_correct (integ : Integ) (grid q qf caf tf : List ℚ)
    (y0 : St) (i : ℕ)
    (hne : ∀ f y ts a b c d, integ f y ts a b c d ≠ [])
    (hq : grid.length - 1 ≤ q.length) (hqf : grid.length - 1 ≤ qf.length)
    (hcaf : grid.length - 1 ≤ caf.length) (htf : grid.length - 1 ≤ tf.length)
    (hi : i + 2 ≤ grid.length) :
    ∃ tr si, driverRun integ grid q qf caf tf y0 = Except.ok tr ∧
      tr[i]? = some si ∧
      tr[i + 1]? = some (stepState integ grid q qf caf tf i si) := by
  obtain ⟨tr, htr, hrel⟩ :=
    driverGo_ok_rel integ grid q qf caf tf hne (grid.length - 1) 0 y0
      (List.replicate grid.length y0) (by omega) (by omega) (by omega)
      (by omega) (by omega) (by rw [List.length_replicate]; omega)
      (by rw [List.getElem?_replicate]
          simp [show 0 < grid.length by omega])
  obtain ⟨si, h1, h2⟩ := hrel i (Nat.zero_le i) (by omega)
  exact ⟨tr, si, by unfold driverRun; exact htr, h1, h2⟩

/-- Witness for C2: the first step of a concrete three-point run. -/
theorem driver_step_correct_witness :
    ((∀ f y ts a b c d, integEcho f y ts a b c d ≠ []) ∧
      0 + 2 ≤ ([0, 1, 2] : List ℚ).length) ∧
    ∃ tr si, driverRun integEcho [0, 1, 2] [5, 5] [5, 5] [1, 1] [300, 300]
        ((1 : ℚ), (0 : ℚ), (350 : ℚ)) = Except.ok tr ∧
      tr[0]? = some si ∧
      tr[0 + 1]? =
        some (stepState integEcho [0, 1, 2] [5, 5] [5, 5] [1, 1] [300, 300] 0 si) :=
  ⟨⟨fun _ _ _ _ _ _ _ => List.cons_ne_nil _ _, by decide⟩,
    driver_step_correct integEcho [0, 1, 2] [5, 5] [5, 5] [1, 1] [300, 300]
      ((1 : ℚ), (0 : ℚ), (350 : ℚ)) 0
      (fun _ _ _ _ _ _ _ => List.cons_ne_nil _ _)
      (by decide) (by decide) (by decide) (by decide) (by decide)⟩

/-- If the outlet-flow schedule runs out at absolute index `q.length`
before the steps do, the loop performs every earlier step and only then
fails, reporting step index `q.length` with the arrays written so far. -/
theorem driverGo_err (integ : Integ) (grid q qf caf tf : List ℚ)
    (hne : ∀ f y ts a b c d, integ f y ts a b c d ≠ []) :
    ∀ k i steps cur traj, k < steps → i + k = q.length →
      i + k ≤ qf.length → i + k ≤ caf.length → i + k ≤ tf.length →
      i + k < grid.length →
      ∃ tr, driverGo integ grid q qf caf tf i steps cur traj =
        Except.error (q.length, tr) := by
  intro k
  induction k with
  | zero =>
    intro i steps cur traj hks hkq _ _ _ _
    cases steps with
    | zero => omega
    | succ steps =>
      have hnone : q[i]? = none := List.getElem?_eq_none (by omega)
      refine ⟨traj, ?_⟩
      simp only [driverGo, hnone]
      have hiq : i = q.length := by omega
      rw [hiq]
  | succ k ih =>
    intro i steps cur traj hks hkq hqf hcaf htf hg
    cases steps with
    | zero => omega
    | succ steps =>
      have hiq : i < q.length := by omega
      have hiqf : i < qf.length := by omega
      have hicaf : i < caf.length := by omega
      have hitf : i < tf.length := by omega
      have hig : i < grid.length := by omega
      have hig1 : i + 1 < grid.length := by omega
      obtain ⟨y, hy⟩ :
          ∃ y, (integ vessel cur [grid[i], grid[i + 1]] q[i] qf[i] caf[i]
            tf[i]).getLast? = some y := by
        cases hL : (integ vessel cur [grid[i], grid[i + 1]] q[i] qf[i] caf[i]
            tf[i]).getLast? with
        | none =>
          exact absurd (List.getLast?_eq_none_iff.mp hL)
            (hne vessel cur [grid[i], grid[i + 1]] q[i] qf[i] caf[i] tf[i])
        | some y => exact ⟨y, rfl⟩
      obtain ⟨tr, htr⟩ :=
        ih (i + 1) steps y (traj.set (i + 1) y) (by omega) (by omega)
          (by omega) (by omega) (by omega) (by omega)
      refine ⟨tr, ?_⟩
      simp only [driverGo, List.getElem?_eq_getElem hiq,
        List.getElem?_eq_getElem hiqf, List.getElem?_eq_getElem hicaf,
        List.getElem?_eq_getElem hitf, List.getElem?_eq_getElem hig,
        List.getElem?_eq_getElem hig1, hy]
      exact htr

/-- Counterexample to claim C6 as stated: with a mismatched (too short)
outlet-flow schedule of length 1 on a 3-point grid, the run is not
rejected up front — the first integration step executes and stores its
result `(2, 3, 4)` at index 1 before the failure at step index 1, so a
partial trajectory is produced. -/
theorem driver_partial_run_counterexample :
    driverRun integStub [0, 1, 2] [5] [5, 5] [1, 1] [300, 300]
        ((1 : ℚ), (0 : ℚ), (350 : ℚ)) =
      Except.error (1,
        [((1 : ℚ), (0 : ℚ), (350 : ℚ)), ((2 : ℚ), (3 : ℚ), (4 : ℚ)),
         ((1 : ℚ), (0 : ℚ), (350 : ℚ))]) := rfl

/-- Claim C6 (amended): no length validation is performed before the
loop runs.  When the outlet-flow schedule is shorter than the
`grid.length - 1` steps (other schedules long enough, integrator
total), the run fails only upon reaching the first missing index
`q.length`, after completing all `q.length` earlier integration steps —
a partial run, not a fail-fast rejection. -/
theorem driver_no_fail_fast (integ : Integ) (grid q qf caf tf : List ℚ)
    (y0 : St) (hne : ∀ f y ts a b c d, integ f y ts a b c d ≠ [])
    (hq : q.length + 1 < grid.length)
    (hqf : q.length ≤ qf.length) (hcaf : q.length ≤ caf.length)
    (htf : q.length ≤ tf.length) :
    ∃ tr, driverRun integ grid q qf caf tf y0 =
      Except.error (q.length, tr) := by
  unfold driverRun
  exact driverGo_err integ grid q qf caf tf hne q.length 0
    (grid.length - 1) y0 (List.replicate grid.length y0) (by omega)
    (by omega) (by omega) (by omega) (by omega) (by omega)

/-- Witness for the amended C6: the concrete mismatched run fails at
step index 1 = `q.length`, not before the loop. -/
theorem driver_no_fail_fast_witness :
    ((∀ f y ts a b c d, integStub f y ts a b c d ≠ []) ∧
      ([(5 : ℚ)].length + 1 < ([0, 1, 2] : List ℚ).length)) ∧
    ∃ tr, driverRun integStub [0, 1, 2] [5] [5, 5] [1, 1] [300, 300]
        ((1 : ℚ), (0 : ℚ), (350 : ℚ)) =
      Except.error ([(5 : ℚ)].length, tr) :=
  ⟨⟨fun _ _ _ _ _ _ _ => List.cons_ne_nil _ _, by decide⟩,
    driver_no_fail_fast integStub [0, 1, 2] [5] [5, 5] [1, 1] [300, 300]
      ((1 : ℚ), (0 : ℚ), (350 : ℚ))
      (fun _ _ _ _ _ _ _ => List.cons_ne_nil _ _)
      (by decide) (by decide) (by decide) (by decide)⟩
